import Mathlib

/-!
Verification of the OCPP charge-point message engine (`src/ocpp/charge_point.py`).

The development shallowly embeds the module's pure helpers
(`camel_to_snake_case`, `snake_to_camel_case`, `serialize_as_dict`,
`remove_nones`, `_raise_key_error`) and its message pipeline
(`route_message`, `_handle_call`, `call`, `_get_specific_response`).
JSON-like payloads are modelled by the inductive `Data` (dictionaries are
ordered key/value lists, as Python dicts preserve insertion order), Python
strings by `List Char`, and wall-clock time by integer ticks (`ℤ`; the
real-valued clock is discretized so that the model stays kernel-evaluable).  External collaborators
(transport, codec, schema validator, per-version action registries, database
cursor, registered handlers) are parameters of the embedding, following the
spec's collaborator interfaces.
-/

set_option autoImplicit false

namespace Ocpp

/-- Python strings are modelled as lists of characters. -/
abbrev Key := List Char

/-- ASCII uppercase test, the `[A-Z]` character class of the module's regexes. -/
def isUpperAZ (c : Char) : Bool := 'A' ≤ c && c ≤ 'Z'

/-- ASCII lowercase test, the `[a-z]` character class of the module's regexes. -/
def isLowerAZ (c : Char) : Bool := 'a' ≤ c && c ≤ 'z'

/-- The `[a-z0-9]` character class of the second regex in `camel_to_snake_case`. -/
def isLowerDigit (c : Char) : Bool := isLowerAZ c || ('0' ≤ c && c ≤ '9')

/-- The `\S` (non-whitespace) lookahead class of the second regex. -/
def notSpace (c : Char) : Bool :=
  !(c = ' ' || c = '\t' || c = '\n' || c = '\r' || c = '\x0b' || c = '\x0c')

/-- Python `str.replace(old, new)`: replace every non-overlapping occurrence of
`old`, scanning left to right.  Structural recursion on a fuel counter that
starts at the string length and never runs out, since each step consumes at
least one character (all call sites in the module use a non-empty `old`; for
an empty `old` the input is returned unchanged). -/
def replaceAllFuel (old new : List Char) : Nat → List Char → List Char
  | _, [] => []
  | 0, s => s
  | fuel + 1, c :: rest =>
    if old ≠ [] ∧ old.isPrefixOf (c :: rest) then
      new ++ replaceAllFuel old new fuel ((c :: rest).drop old.length)
    else
      c :: replaceAllFuel old new fuel rest

/-- `s.replace(old, new)`. -/
def replaceAll (old new s : List Char) : List Char :=
  replaceAllFuel old new s.length s

/-- `re.sub("(.)([A-Z][a-z]+)", r"\1_\2", s)`: insert an underscore between
any character and a following maximal `[A-Z][a-z]+` group, scanning left to
right and resuming after each match (the greedy `[a-z]+` consumes the whole
lowercase run).  Fuel as in `replaceAllFuel`. -/
def sub1Fuel : Nat → List Char → List Char
  | _, [] => []
  | _, [c] => [c]
  | _, [c0, c1] => [c0, c1]
  | 0, s => s
  | fuel + 1, c0 :: c1 :: c2 :: rest2 =>
    if isUpperAZ c1 && isLowerAZ c2 then
      let lows := (c2 :: rest2).takeWhile isLowerAZ
      let rest3 := (c2 :: rest2).dropWhile isLowerAZ
      c0 :: '_' :: c1 :: (lows ++ sub1Fuel fuel rest3)
    else
      c0 :: sub1Fuel fuel (c1 :: c2 :: rest2)

/-- The first regex substitution of `camel_to_snake_case`. -/
def sub1 (s : List Char) : List Char :=
  sub1Fuel s.length s

/-- `re.sub("([a-z0-9])([A-Z])(?=\S)", r"\1_\2", s)`: insert an underscore
between a lowercase/digit character and a following uppercase character that
is itself followed by a non-space character; the lookahead character is not
consumed, so scanning resumes at it. -/
def sub2 : List Char → List Char
  | c0 :: c1 :: c2 :: rest =>
    if isLowerDigit c0 && isUpperAZ c1 && notSpace c2 then
      c0 :: '_' :: c1 :: sub2 (c2 :: rest)
    else
      c0 :: sub2 (c1 :: c2 :: rest)
  | s => s

/-- Python `key.split("_")` (empty segments are preserved, `"".split("_") == [""]`). -/
def splitUnderscore : List Char → List Key
  | [] => [[]]
  | c :: rest =>
    if c = '_' then
      [] :: splitUnderscore rest
    else
      match splitUnderscore rest with
      | [] => [[c]]
      | w :: ws => (c :: w) :: ws

/-- Python `x[:1].upper() + x[1:]`: uppercase the first character of a segment. -/
def upperFirst : Key → Key
  | [] => []
  | c :: cs => c.toUpper :: cs

/-- The per-key body of `camel_to_snake_case` (lines 29-32 of the source):
two verbatim replacements, the two regex substitutions, and lowercasing. -/
def camelToSnakeKey (k : Key) : Key :=
  let k := replaceAll ("ocppCSMSURL".data) ("ocpp_csms_url".data) k
  let k := replaceAll ("V2G".data) ("_v2g".data) (replaceAll ("V2X".data) ("_v2x".data) k)
  let s1 := sub1 k
  (sub2 s1).map Char.toLower

/-- The per-key body of `snake_to_camel_case` (lines 58-70 of the source): the
chain of verbatim replacements in source order, then splitting on underscores
and capitalizing every component except the first. -/
def snakeToCamelKey (k : Key) : Key :=
  let k := replaceAll ("soc".data) ("SoC".data) k
  let k := replaceAll ("_v2x".data) ("V2X".data) k
  let k := replaceAll ("ocpp_csms_url".data) ("ocppCsmsUrl".data) k
  let k := replaceAll ("csms".data) ("CSMS".data) k
  let k := replaceAll ("_url".data) ("URL".data) k
  let k := replaceAll ("_SoCket".data) ("Socket".data) (replaceAll ("soc".data) ("SoC".data) k)
  let k := replaceAll ("_v2x".data) ("V2X".data) k
  let k := replaceAll ("soc_limit_reached".data) ("SOCLimitReached".data) k
  let k := replaceAll ("_v2g".data) ("V2G".data) (replaceAll ("_v2x".data) ("V2X".data) k)
  match splitUnderscore k with
  | [] => []
  | c0 :: comps => c0 ++ (comps.map upperFirst).flatten

/-- JSON-like values: the payloads flowing through the module.  Python dicts
are modelled as ordered key/value lists (insertion order preserved); `null`
is Python's `None`. -/
inductive Data where
  | null : Data
  | b : Bool → Data
  | i : Int → Data
  | s : List Char → Data
  | dict : List (Key × Data) → Data
  | list : List Data → Data

/-- `x is None`, the identity test `remove_nones` filters with. -/
def Data.isNull : Data → Bool
  | .null => true
  | _ => false

mutual

/-- `camel_to_snake_case` (lines 18-45): rename every dictionary key at every
nesting depth with the camel-to-snake key transformation; everything else
passes through unchanged. -/
def camel_to_snake_case : Data → Data
  | .null => .null
  | .b v => .b v
  | .i n => .i n
  | .s v => .s v
  | .dict kvs => .dict (camelToSnakeDict kvs)
  | .list xs => .list (camelToSnakeList xs)

/-- The dictionary loop of `camel_to_snake_case`. -/
def camelToSnakeDict : List (Key × Data) → List (Key × Data)
  | [] => []
  | (k, v) :: rest => (camelToSnakeKey k, camel_to_snake_case v) :: camelToSnakeDict rest

/-- The list loop of `camel_to_snake_case`. -/
def camelToSnakeList : List Data → List Data
  | [] => []
  | v :: rest => camel_to_snake_case v :: camelToSnakeList rest

end

mutual

/-- `snake_to_camel_case` (lines 48-82): rename every dictionary key at every
nesting depth with the snake-to-camel key transformation; everything else
passes through unchanged. -/
def snake_to_camel_case : Data → Data
  | .null => .null
  | .b v => .b v
  | .i n => .i n
  | .s v => .s v
  | .dict kvs => .dict (snakeToCamelDict kvs)
  | .list xs => .list (snakeToCamelList xs)

/-- The dictionary loop of `snake_to_camel_case`. -/
def snakeToCamelDict : List (Key × Data) → List (Key × Data)
  | [] => []
  | (k, v) :: rest => (snakeToCamelKey k, snake_to_camel_case v) :: snakeToCamelDict rest

/-- The list loop of `snake_to_camel_case`. -/
def snakeToCamelList : List Data → List Data
  | [] => []
  | v :: rest => snake_to_camel_case v :: snakeToCamelList rest

end

mutual

/-- `remove_nones` (lines 152-159): drop every dict entry whose value is
`None` and every list element that is `None`, recursively; all other values
(including falsy ones such as `""`, `0` and `False`) pass through. -/
def remove_nones : Data → Data
  | .null => .null
  | .b v => .b v
  | .i n => .i n
  | .s v => .s v
  | .dict kvs => .dict (removeNonesDict kvs)
  | .list xs => .list (removeNonesList xs)

/-- The dict comprehension of `remove_nones`: `if v is not None`. -/
def removeNonesDict : List (Key × Data) → List (Key × Data)
  | [] => []
  | (k, v) :: rest =>
    if v.isNull then removeNonesDict rest
    else (k, remove_nones v) :: removeNonesDict rest

/-- The list comprehension of `remove_nones`: `if v is not None`. -/
def removeNonesList : List Data → List Data
  | [] => []
  | v :: rest =>
    if v.isNull then removeNonesList rest
    else remove_nones v :: removeNonesList rest

end

mutual

/-- A Python dataclass instance: an ordered sequence of named fields.  Field
values are primitives, nested dataclasses, or lists whose elements are
primitives or dataclasses — the shapes OCPP payload dataclasses have and
that `serialize_as_dict` converts. -/
inductive DCVal where
  | prim : Data → DCVal
  | sub : List (Key × DCVal) → DCVal
  | items : List DCItem → DCVal

/-- An element of a list-valued dataclass field. -/
inductive DCItem where
  | prim : Data → DCItem
  | sub : List (Key × DCVal) → DCItem

end

mutual

/-- `serialize_as_dict` (lines 107-149) on a dataclass's field list:
`asdict` plus the explicit per-field loop amount to converting every
dataclass (at any depth, including inside list fields) to a plain dict. -/
def serializeFields : List (Key × DCVal) → List (Key × Data)
  | [] => []
  | (k, v) :: rest => (k, serializeVal v) :: serializeFields rest

/-- Serialization of one dataclass field value. -/
def serializeVal : DCVal → Data
  | .prim d => d
  | .sub fields => .dict (serializeFields fields)
  | .items l => .list (serializeItems l)

/-- Serialization of the elements of a list-valued field. -/
def serializeItems : List DCItem → List Data
  | [] => []
  | .prim d :: rest => d :: serializeItems rest
  | .sub fields :: rest => .dict (serializeFields fields) :: serializeItems rest

end

/-- `serialize_as_dict` applied to a whole dataclass. -/
def serialize_as_dict (fields : List (Key × DCVal)) : Data :=
  .dict (serializeFields fields)

/-- First-match association-list lookup, Python's `dict[k]` on our ordered
dict model. -/
def lookupD (k : Key) : List (Key × Data) → Option Data
  | [] => none
  | (k', v) :: rest => if k' = k then some v else lookupD k rest

/-- A snake_case key whose snake→camel→snake round trip is the identity. -/
def roundSnakeKey (k : Key) : Bool :=
  decide (camelToSnakeKey (snakeToCamelKey k) = k)

/-- A camelCase key whose camel→snake→camel round trip is the identity. -/
def roundCamelKey (k : Key) : Bool :=
  decide (snakeToCamelKey (camelToSnakeKey k) = k)

mutual

/-- Every dict key at every depth of the value round-trips snake→camel→snake. -/
def goodSnake : Data → Bool
  | .dict kvs => goodSnakeDict kvs
  | .list xs => goodSnakeList xs
  | _ => true

def goodSnakeDict : List (Key × Data) → Bool
  | [] => true
  | (k, v) :: rest => roundSnakeKey k && goodSnake v && goodSnakeDict rest

def goodSnakeList : List Data → Bool
  | [] => true
  | v :: rest => goodSnake v && goodSnakeList rest

end

mutual

/-- Every dict key at every depth of the value round-trips camel→snake→camel. -/
def goodCamel : Data → Bool
  | .dict kvs => goodCamelDict kvs
  | .list xs => goodCamelList xs
  | _ => true

def goodCamelDict : List (Key × Data) → Bool
  | [] => true
  | (k, v) :: rest => roundCamelKey k && goodCamel v && goodCamelDict rest

def goodCamelList : List Data → Bool
  | [] => true
  | v :: rest => goodCamel v && goodCamelList rest

end

/-- The negotiated protocol version tag `self._ocpp_version` (set by the
version-specific subclasses): `"1.6"`, `"2.0"` or `"2.0.1"`, the versions
`_raise_key_error` distinguishes. -/
inductive Version where
  | v16
  | v20
  | v201

/-- The `{version}` interpolation of `_raise_key_error`'s error message. -/
def versionStr : Version → List Char
  | .v16 => "1.6".data
  | .v20 => "2.0".data
  | .v201 => "2.0.1".data

/-- Python exceptions the pipeline can raise or catch.  The first five model
`ocpp.exceptions.OCPPError` and its subclasses; the rest are ordinary Python
exceptions (`KeyError`, `AttributeError`, database driver errors, ...). -/
inductive PyExn where
  | notImplemented (cause : List Char)
  | notSupported (cause : List Char)
  | schemaValidation
  | parseError
  | remote (code description : List Char) (details : Data)
  | keyError
  | attributeError
  | valueError
  | typeError
  | dbError
  | timeoutError

/-- `isinstance(e, OCPPError)`: what an `except OCPPError` clause catches. -/
def PyExn.isOCPPError : PyExn → Bool
  | .notImplemented _ => true
  | .notSupported _ => true
  | .schemaValidation => true
  | .parseError => true
  | .remote _ _ _ => true
  | _ => false

/-- `isinstance(e, KeyError)`: what the `except KeyError` around the
after-action hook catches. -/
def PyExn.isKeyError : PyExn → Bool
  | .keyError => true
  | _ => false

/-- `f"No handler for {action} registered."` -/
def noHandlerCause (action : List Char) : List Char :=
  ("No handler for ".data) ++ action ++ (" registered.".data)

/-- `f"{action} not supported by OCPP{version}."` -/
def notSupportedCause (action : List Char) (version : Version) : List Char :=
  action ++ (" not supported by OCPP".data) ++ versionStr version ++ (".".data)

/-- `_raise_key_error` (lines 162-194).  The per-version `Action` enums it
consults live in `ocpp.v16.enums` / `ocpp.v201.enums`, outside the given
source; following the spec they are `registry`, the protocol-version action
registry collaborator ("given an action name and a protocol version, reports
whether the action is a recognized part of that version").  Membership in the
enum (`v16_Action(action)` succeeding) yields `NotImplementedError`, a
`ValueError` from the enum constructor yields `NotSupportedError`; the raised
exception is returned as a value. -/
def raise_key_error (registry : Version → List Char → Bool)
    (action : List Char) (version : Version) : PyExn :=
  match version with
  | .v16 =>
    if registry .v16 action then .notImplemented (noHandlerCause action)
    else .notSupported (notSupportedCause action .v16)
  | .v20 =>
    if registry .v20 action then .notImplemented (noHandlerCause action)
    else .notSupported (notSupportedCause action .v20)
  | .v201 =>
    if registry .v201 action then .notImplemented (noHandlerCause action)
    else .notSupported (notSupportedCause action .v201)

/-- An inbound `CallResult` or `CallError` message as decoded by
`ocpp.messages.unpack` (the codec collaborator): `is_error` distinguishes the
two; the error fields are the peer's code/description/details. -/
structure RespMsg where
  uniqueId : List Char
  is_error : Bool
  payload : Data
  errorCode : List Char
  errorDescription : List Char
  errorDetails : Data

/-- A frame handed to `self._send` (the transport collaborator). -/
inductive OutFrame where
  | callFrame (uniqueId action : List Char) (payload : Data)
  | callResultFrame (uniqueId : List Char) (payload : Data)
  | callErrorFrame (uniqueId : List Char) (error : PyExn)

/-- Observable side effects of processing one inbound message, in order. -/
inductive Effect where
  | audit
  | logged
  | sent (frame : OutFrame)
  | queued (m : RespMsg)
  | invokedOn (payload : Data)
  | invokedAfter (payload : Data)
  | detachedTask

/-- What a handler invocation produced: a plain value, or an awaitable (for
the after-action hook the awaitable is scheduled with `ensure_future`). -/
inductive AfterOutcome where
  | value
  | awaitable

/-- One entry of `self.route_map` (built by the `create_route_map`
collaborator): the optional `_on_action` and `_after_action` hooks and the
`_skip_schema_validation` flag (`handlers.get(..., False)`).  A handler is a
function from the snake_case payload to either a raised exception or its
result; the `call_unique_id` keyword plumbing, which does not affect any
claim, is elided. -/
structure HandlerEntry where
  onAction : Option (Data → Except PyExn (List (Key × DCVal)))
  afterAction : Option (Data → Except PyExn AfterOutcome)
  skipSchemaValidation : Bool

/-- The collaborators of a `ChargePoint` session: the negotiated version, the
route map, the action registries, the schema validator
(`validate_payload`, modelled from the spec: "fails when the payload does not
conform to the action's schema for that version"), and the outcome of the
`self._cursor.execute(...)` audit/persistence call (`none` when it succeeds,
otherwise the exception it raises — with the default `cursor=None`
construction it raises `AttributeError`). -/
structure Env where
  version : Version
  routeMap : List Char → Option HandlerEntry
  registry : Version → List Char → Bool
  validate : List Char → Data → Bool
  cursorRaises : Option PyExn

/-- Result of running a piece of the inbound pipeline: the effects it
performed, and the exception escaping it, if any. -/
structure PipeRes where
  effects : List Effect
  raised : Option PyExn

/-- `ChargePoint._handle_call` (lines 285-374), with the exception it raises
(if any) returned as `raised`:
route lookup (`KeyError` → `_raise_key_error`), request schema validation
unless skipped, payload conversion to snake_case, `_on_action` invocation
(any exception is caught, logged, and turned into a CallError frame), response
serialization / `remove_nones` / camelCase conversion, response validation
unless skipped, sending the CallResult, and finally the `_after_action` hook
guarded only by `except KeyError: pass`. -/
def handle_call (env : Env) (uniqueId action : List Char) (payload : Data) : PipeRes :=
  match env.routeMap action with
  | none => { effects := [], raised := some (raise_key_error env.registry action env.version) }
  | some handlers =>
    if !handlers.skipSchemaValidation && !env.validate action payload then
      { effects := [], raised := some .schemaValidation }
    else
      let snakeCasePayload := camel_to_snake_case payload
      match handlers.onAction with
      | none => { effects := [], raised := some (raise_key_error env.registry action env.version) }
      | some handler =>
        match handler snakeCasePayload with
        | .error e =>
          { effects := [.invokedOn snakeCasePayload, .logged, .sent (.callErrorFrame uniqueId e)],
            raised := none }
        | .ok responseDC =>
          let responsePayload := snake_to_camel_case (remove_nones (serialize_as_dict responseDC))
          if !handlers.skipSchemaValidation && !env.validate action responsePayload then
            { effects := [.invokedOn snakeCasePayload], raised := some .schemaValidation }
          else
            match handlers.afterAction with
            | none =>
              { effects := [.invokedOn snakeCasePayload,
                  .sent (.callResultFrame uniqueId responsePayload)], raised := none }
            | some after =>
              match after snakeCasePayload with
              | .error e =>
                if e.isKeyError then
                  { effects := [.invokedOn snakeCasePayload,
                      .sent (.callResultFrame uniqueId responsePayload),
                      .invokedAfter snakeCasePayload], raised := none }
                else
                  { effects := [.invokedOn snakeCasePayload,
                      .sent (.callResultFrame uniqueId responsePayload),
                      .invokedAfter snakeCasePayload], raised := some e }
              | .ok .value =>
                { effects := [.invokedOn snakeCasePayload,
                    .sent (.callResultFrame uniqueId responsePayload),
                    .invokedAfter snakeCasePayload], raised := none }
              | .ok .awaitable =>
                { effects := [.invokedOn snakeCasePayload,
                    .sent (.callResultFrame uniqueId responsePayload),
                    .invokedAfter snakeCasePayload, .detachedTask], raised := none }

/-- An inbound message after decoding: a Call, or a response
(CallResult/CallError — `route_message` treats the two alike). -/
inductive Msg where
  | callMsg (uniqueId action : List Char) (payload : Data)
  | responseMsg (m : RespMsg)

/-- `ChargePoint.route_message` (lines 253-283), taking the outcome of
`unpack(raw_msg)` (the codec collaborator) as input.  The first `try` spans
both `unpack` and the `self._cursor.execute(...)` audit write and catches
only `OCPPError`; a Call is dispatched to `_handle_call` under a second
`except OCPPError` that answers with a CallError frame; responses are logged
and pushed onto the response queue. -/
def route_message (env : Env) (decoded : Except PyExn Msg) : PipeRes :=
  match decoded with
  | .error e =>
    if e.isOCPPError then { effects := [.logged], raised := none }
    else { effects := [], raised := some e }
  | .ok msg =>
    match env.cursorRaises with
    | some e =>
      if e.isOCPPError then { effects := [.logged], raised := none }
      else { effects := [], raised := some e }
    | none =>
      match msg with
      | .callMsg uniqueId action payload =>
        let r := handle_call env uniqueId action payload
        match r.raised with
        | some e =>
          if e.isOCPPError then
            { effects := .audit :: r.effects ++ [.logged, .sent (.callErrorFrame uniqueId e)],
              raised := none }
          else
            { effects := .audit :: r.effects, raised := some e }
        | none => { effects := .audit :: r.effects, raised := none }
      | .responseMsg m =>
        { effects := [.audit, .logged, .queued m], raised := none }

/-- Result of `_get_specific_response`: `out` is `.error ()` when it raised
`asyncio.TimeoutError`, `.ok none` when it returned `None` after the inner
`wait_for` timed out, `.ok (some m)` on a correlation match; `endTime` is the
wall-clock time at which it finished; `dropped` are the mismatched responses
it discarded with a warning. -/
structure GetSpecRes where
  out : Except Unit (Option RespMsg)
  endTime : ℤ
  dropped : List RespMsg

/-- `ChargePoint._get_specific_response` (lines 455-477).  The response queue
is modelled by the list of future arrivals `(t, m)` in arrival order;
`asyncio.wait_for(self._response_queue.get(), timeout)` yields the next
arrival if it comes within `timeout` (immediately if already queued), raises
`TimeoutError` otherwise, and raises `TimeoutError` at once when
`timeout ≤ 0`.  `wait_until = time.time() + timeout` is fixed on entry; on a
correlation mismatch the message is discarded with a warning and the
recursion continues with `timeout_left = wait_until - time.time()`, raising
`TimeoutError` if that is negative. -/
def get_specific_response (uniqueId : List Char) (timeout now : ℤ) :
    List (ℤ × RespMsg) → GetSpecRes
  | [] =>
    if timeout ≤ 0 then { out := .ok none, endTime := now, dropped := [] }
    else { out := .ok none, endTime := now + timeout, dropped := [] }
  | (t, m) :: rest =>
    if timeout ≤ 0 then { out := .ok none, endTime := now, dropped := [] }
    else if t ≤ now + timeout then
      let now2 := max now t
      if m.uniqueId = uniqueId then { out := .ok (some m), endTime := now2, dropped := [] }
      else
        let timeoutLeft := (now + timeout) - now2
        if timeoutLeft < 0 then { out := .error (), endTime := now2, dropped := [m] }
        else
          let r := get_specific_response uniqueId timeoutLeft now2 rest
          { out := r.out, endTime := r.endTime, dropped := m :: r.dropped }
    else { out := .ok none, endTime := now + timeout, dropped := [] }

/-- Timestamped events of one `call()` execution: taking and releasing
`self._call_lock`, handing the Call frame to the transport, and the terminal
outcome of the wait (a dequeued response or a timeout). -/
inductive CEv where
  | acquire
  | sentC (frame : OutFrame)
  | gotResponse (m : RespMsg)
  | timedOut
  | release

/-- Result of one `call()` execution: the value returned to the caller
(`.ok none` is the silent "no response", `.ok (some d)` the snake_case
response payload wrapped into the per-action result class, `.error e` an
exception raised to the caller) plus the timestamped event trace and the
time at which the lock section ended. -/
structure CallRes where
  result : Except PyExn (Option Data)
  events : List (ℤ × CEv)
  endTime : ℤ

/-- Collaborators and ambient state of one `call()` invocation: the time the
call starts (= acquires the lock), the configured `response_timeout`, the
future arrivals on the response queue, the schema validator, a transport
fault (`none` when `_send` succeeds), and the id produced by
`self._unique_id_generator()`. -/
structure CallEnv where
  startTime : ℤ
  responseTimeout : ℤ
  arrivals : List (ℤ × RespMsg)
  validate : List Char → Data → Bool
  sendFails : Option PyExn
  generatedId : List Char

/-- `ChargePoint.call` (lines 376-453).  `action` is
`payload.__class__.__name__`; `fields` the payload dataclass.  The payload is
serialized, camelCased, stripped of `None`s, and validated unless
`skip_schema_validation` (a failure propagates to the caller before anything
is sent).  Under the lock the frame is sent and
`_get_specific_response(unique_id, response_timeout)` awaited: a
`TimeoutError` (caught) and a `None` both make `call` return `None`; a
CallError response returns `None` when `suppress` else raises
`response.to_exception()` (modelled from the spec's codec collaborator:
"Message.toException() → typed error value", carrying the peer's
code/description/details); a CallResult is validated unless skipped and its
payload returned in snake_case (the `cls(**snake_case_payload)` result-class
wrapper, living in the version modules outside the given source, is modelled
from the spec: "converted to internal naming and returned as a typed result
matching the request's action"). -/
def ChargePoint.call (env : CallEnv) (action : List Char) (fields : List (Key × DCVal))
    (suppress : Bool) (uniqueIdArg : Option (List Char))
    (skipSchemaValidation : Bool) : CallRes :=
  let camelCasePayload := snake_to_camel_case (serialize_as_dict fields)
  let uniqueId := uniqueIdArg.getD env.generatedId
  let callPayload := remove_nones camelCasePayload
  let frame := OutFrame.callFrame uniqueId action callPayload
  if !skipSchemaValidation && !env.validate action callPayload then
    { result := .error .schemaValidation, events := [], endTime := env.startTime }
  else
    match env.sendFails with
    | some e =>
      { result := .error e,
        events := [(env.startTime, .acquire), (env.startTime, .release)],
        endTime := env.startTime }
    | none =>
      let g := get_specific_response uniqueId env.responseTimeout env.startTime env.arrivals
      match g.out with
      | .error _ =>
        { result := .ok none,
          events := [(env.startTime, .acquire), (env.startTime, .sentC frame),
            (g.endTime, .timedOut), (g.endTime, .release)],
          endTime := g.endTime }
      | .ok none =>
        { result := .ok none,
          events := [(env.startTime, .acquire), (env.startTime, .sentC frame),
            (g.endTime, .timedOut), (g.endTime, .release)],
          endTime := g.endTime }
      | .ok (some m) =>
        let evs := [(env.startTime, .acquire), (env.startTime, .sentC frame),
          (g.endTime, .gotResponse m), (g.endTime, .release)]
        if m.is_error then
          if suppress then { result := .ok none, events := evs, endTime := g.endTime }
          else
            { result := .error (.remote m.errorCode m.errorDescription m.errorDetails),
              events := evs, endTime := g.endTime }
        else if !skipSchemaValidation && !env.validate action m.payload then
          { result := .error .schemaValidation, events := evs, endTime := g.endTime }
        else
          { result := .ok (some (camel_to_snake_case m.payload)), events := evs,
            endTime := g.endTime }

/-- Lookup of `k` in a `Data` dict node (`none` on non-dict values). -/
def dictLookup (d : Data) (k : Key) : Option Data :=
  match d with
  | .dict kvs => lookupD k kvs
  | _ => none

/-- First-match lookup in a dataclass field list. -/
def lookupDC (k : Key) : List (Key × DCVal) → Option DCVal
  | [] => none
  | (k', v) :: rest => if k' = k then some v else lookupDC k rest

/-- Checks that every invocation of the after-action hook in an effect trace
comes after a CallResult frame was handed to the transport; `seen` records
whether such a frame has been sent yet. -/
def afterOnlyAfterSend (seen : Bool) : List Effect → Bool
  | [] => true
  | .invokedAfter _ :: rest => seen && afterOnlyAfterSend seen rest
  | .sent (.callResultFrame _ _) :: rest => afterOnlyAfterSend true rest
  | _ :: rest => afterOnlyAfterSend seen rest

/-- Is this event the transmission of a frame? -/
def isSendEvent : ℤ × CEv → Bool
  | (_, .sentC _) => true
  | _ => false

/-- Number of frames handed to the transport during one `call()` execution. -/
def countSends (events : List (ℤ × CEv)) : Nat :=
  events.countP isSendEvent


theorem getSpec_endTime_le (uid : List Char) :
    ∀ (arr : List (ℤ × RespMsg)) (timeout now : ℤ), 0 ≤ timeout →
      (get_specific_response uid timeout now arr).endTime ≤ now + timeout := by
  intro arr
  induction arr with
  | nil =>
    intro timeout now h
    simp only [get_specific_response]
    split_ifs with h1
    · simp only []
      linarith
    · simp only []
      exact le_rfl
  | cons p rest ih =>
    obtain ⟨t, m⟩ := p
    intro timeout now h
    simp only [get_specific_response]
    split_ifs with h1 h2 h3 h4
    · simp only []
      linarith
    · simp only []
      exact max_le (by linarith) h2
    · simp only []
      exact max_le (by linarith) h2
    · simp only []
      have h5 := ih ((now + timeout) - max now t) (max now t) (by linarith)
      linarith
    · simp only []
      exact le_rfl

theorem getSpec_endTime_ge (uid : List Char) :
    ∀ (arr : List (ℤ × RespMsg)) (timeout now : ℤ), 0 ≤ timeout →
      now ≤ (get_specific_response uid timeout now arr).endTime := by
  intro arr
  induction arr with
  | nil =>
    intro timeout now h
    simp only [get_specific_response]
    split_ifs with h1
    · simp only []
      exact le_rfl
    · simp only []
      linarith
  | cons p rest ih =>
    obtain ⟨t, m⟩ := p
    intro timeout now h
    simp only [get_specific_response]
    split_ifs with h1 h2 h3 h4
    · simp only []
      exact le_rfl
    · simp only []
      exact le_max_left now t
    · simp only []
      exact le_max_left now t
    · simp only []
      have h5 := ih ((now + timeout) - max now t) (max now t) (by linarith)
      calc now ≤ max now t := le_max_left now t
        _ ≤ _ := h5
    · simp only []
      linarith

theorem getSpec_match (uid : List Char) :
    ∀ (arr : List (ℤ × RespMsg)) (timeout now : ℤ) (m : RespMsg),
      (get_specific_response uid timeout now arr).out = .ok (some m) →
      m.uniqueId = uid := by
  intro arr
  induction arr with
  | nil =>
    intro timeout now m h
    simp only [get_specific_response] at h
    split_ifs at h <;> simp at h
  | cons p rest ih =>
    obtain ⟨t, m0⟩ := p
    intro timeout now m h
    simp only [get_specific_response] at h
    split_ifs at h with h1 h2 h3 h4 <;>
      first
        | (simp at h; done)
        | (simp at h; subst h; exact h3)
        | (exact ih _ _ m h)

theorem getSpec_dropped (uid : List Char) :
    ∀ (arr : List (ℤ × RespMsg)) (timeout now : ℤ) (m : RespMsg),
      m ∈ (get_specific_response uid timeout now arr).dropped →
      m.uniqueId ≠ uid := by
  intro arr
  induction arr with
  | nil =>
    intro timeout now m h
    simp only [get_specific_response] at h
    split_ifs at h <;> simp at h
  | cons p rest ih =>
    obtain ⟨t, m0⟩ := p
    intro timeout now m h
    simp only [get_specific_response] at h
    split_ifs at h with h1 h2 h3 h4 <;>
      first
        | (simp at h; done)
        | (simp only [List.mem_singleton] at h; subst h; exact h3)
        | (simp only [List.mem_cons] at h; rcases h with rfl | h; exacts [h3, ih _ _ m h])

mutual

theorem roundSnakeData : ∀ d : Data, goodSnake d = true →
    camel_to_snake_case (snake_to_camel_case d) = d
  | .null, _ => rfl
  | .b _, _ => rfl
  | .i _, _ => rfl
  | .s _, _ => rfl
  | .dict kvs, h => by
    simp only [goodSnake] at h
    simp only [snake_to_camel_case, camel_to_snake_case]
    rw [roundSnakeDict kvs h]
  | .list xs, h => by
    simp only [goodSnake] at h
    simp only [snake_to_camel_case, camel_to_snake_case]
    rw [roundSnakeList xs h]

theorem roundSnakeDict : ∀ kvs : List (Key × Data), goodSnakeDict kvs = true →
    camelToSnakeDict (snakeToCamelDict kvs) = kvs
  | [], _ => rfl
  | (k, v) :: rest, h => by
    simp only [goodSnakeDict, roundSnakeKey, Bool.and_eq_true] at h
    simp only [snakeToCamelDict, camelToSnakeDict]
    rw [roundSnakeData v h.1.2, roundSnakeDict rest h.2, of_decide_eq_true h.1.1]

theorem roundSnakeList : ∀ xs : List Data, goodSnakeList xs = true →
    camelToSnakeList (snakeToCamelList xs) = xs
  | [], _ => rfl
  | v :: rest, h => by
    simp only [goodSnakeList, Bool.and_eq_true] at h
    simp only [snakeToCamelList, camelToSnakeList]
    rw [roundSnakeData v h.1, roundSnakeList rest h.2]

end

mutual

theorem roundCamelData : ∀ d : Data, goodCamel d = true →
    snake_to_camel_case (camel_to_snake_case d) = d
  | .null, _ => rfl
  | .b _, _ => rfl
  | .i _, _ => rfl
  | .s _, _ => rfl
  | .dict kvs, h => by
    simp only [goodCamel] at h
    simp only [snake_to_camel_case, camel_to_snake_case]
    rw [roundCamelDict kvs h]
  | .list xs, h => by
    simp only [goodCamel] at h
    simp only [snake_to_camel_case, camel_to_snake_case]
    rw [roundCamelList xs h]

theorem roundCamelDict : ∀ kvs : List (Key × Data), goodCamelDict kvs = true →
    snakeToCamelDict (camelToSnakeDict kvs) = kvs
  | [], _ => rfl
  | (k, v) :: rest, h => by
    simp only [goodCamelDict, roundCamelKey, Bool.and_eq_true] at h
    simp only [snakeToCamelDict, camelToSnakeDict]
    rw [roundCamelData v h.1.2, roundCamelDict rest h.2, of_decide_eq_true h.1.1]

theorem roundCamelList : ∀ xs : List Data, goodCamelList xs = true →
    snakeToCamelList (camelToSnakeList xs) = xs
  | [], _ => rfl
  | v :: rest, h => by
    simp only [goodCamelList, Bool.and_eq_true] at h
    simp only [snakeToCamelList, camelToSnakeList]
    rw [roundCamelData v h.1, roundCamelList rest h.2]

end

theorem lookupD_of_not_mem (k : Key) :
    ∀ kvs : List (Key × Data), k ∉ kvs.map Prod.fst → lookupD k kvs = none := by
  intro kvs
  induction kvs with
  | nil => intro _; rfl
  | cons p rest ih =>
    obtain ⟨k', v⟩ := p
    intro h
    simp only [List.map_cons, List.mem_cons, not_or] at h
    simp only [lookupD]
    rw [if_neg (fun he => h.1 he.symm)]
    exact ih h.2

theorem lookup_removeNonesDict (k : Key) :
    ∀ kvs : List (Key × Data), (kvs.map Prod.fst).Nodup →
      lookupD k (removeNonesDict kvs)
        = (lookupD k kvs).bind
            (fun v => if v.isNull then none else some (remove_nones v)) := by
  intro kvs
  induction kvs with
  | nil => intro _; rfl
  | cons p rest ih =>
    obtain ⟨k', v⟩ := p
    intro hnd
    simp only [List.map_cons, List.nodup_cons] at hnd
    simp only [removeNonesDict, lookupD]
    by_cases hnull : v.isNull
    · rw [if_pos hnull]
      by_cases hk : k' = k
      · subst hk
        rw [if_pos rfl]
        rw [ih hnd.2, lookupD_of_not_mem k' rest hnd.1]
        simp [hnull]
      · rw [if_neg hk]
        exact ih hnd.2
    · rw [if_neg hnull]
      simp only [lookupD]
      by_cases hk : k' = k
      · rw [if_pos hk, if_pos hk]
        simp [hnull]
      · rw [if_neg hk, if_neg hk]
        exact ih hnd.2

theorem lookupD_serializeFields (k : Key) :
    ∀ fields : List (Key × DCVal),
      lookupD k (serializeFields fields) = (lookupDC k fields).map serializeVal := by
  intro fields
  induction fields with
  | nil => rfl
  | cons p rest ih =>
    obtain ⟨k', v⟩ := p
    simp only [serializeFields, lookupD, lookupDC]
    by_cases hk : k' = k
    · rw [if_pos hk, if_pos hk]
      rfl
    · rw [if_neg hk, if_neg hk]
      exact ih

theorem serializeFields_keys :
    ∀ fields : List (Key × DCVal),
      (serializeFields fields).map Prod.fst = fields.map Prod.fst := by
  intro fields
  induction fields with
  | nil => rfl
  | cons p rest ih =>
    obtain ⟨k', v⟩ := p
    simp only [serializeFields, List.map_cons, ih]

theorem remove_nones_isNull : ∀ v : Data, (remove_nones v).isNull = v.isNull := by
  intro v
  cases v <;> rfl

theorem removeNonesList_all : ∀ xs : List Data,
    (removeNonesList xs).all (fun v => !v.isNull) = true := by
  intro xs
  induction xs with
  | nil => rfl
  | cons v rest ih =>
    simp only [removeNonesList]
    by_cases hv : v.isNull
    · rw [if_pos hv]
      exact ih
    · rw [if_neg hv]
      simp only [List.all_cons, ih, Bool.and_true]
      simp [remove_nones_isNull, hv]

theorem removeNonesList_length : ∀ xs : List Data,
    (removeNonesList xs).length = xs.countP (fun v => !v.isNull) := by
  intro xs
  induction xs with
  | nil => rfl
  | cons v rest ih =>
    simp only [removeNonesList, List.countP_cons]
    by_cases hv : v.isNull
    · rw [if_pos hv]
      simp [hv, ih]
    · rw [if_neg hv]
      simp only [List.length_cons, ih]
      simp [hv]

/-- C1 counterexample: the documented exception key `soc_limit_reached` does
not round-trip.  `snake_to_camel_case` turns it into `SoCLimitReached` (the
`soc → SoC` replacement on line 58 fires before the
`soc_limit_reached → SOCLimitReached` rule on line 67, which can therefore
never match), and `camel_to_snake_case` maps that back to
`so_c_limit_reached`, not to the original key. -/
theorem C1_counterexample :
    camel_to_snake_case (snake_to_camel_case
        (.dict [("soc_limit_reached".data, Data.b true)]))
      = .dict [("so_c_limit_reached".data, Data.b true)]
    ∧ camelToSnakeKey (snakeToCamelKey ("soc_limit_reached".data))
        ≠ "soc_limit_reached".data := by
  exact ⟨rfl, by decide⟩

/-- C1 (amended): `camel_to_snake_case` and `snake_to_camel_case` are mutually
inverse, at arbitrary nesting depth inside dicts and lists, on every payload
whose keys individually round-trip, and the keys of the documented exception
table other than `soc_limit_reached` — `ocpp_csms_url`/`ocppCsmsUrl`, the
`_v2x`/`_v2g` tokens, `_url`, `csms` — as well as generic camel-compound keys
(that do not contain an exception substring such as `soc`) do round-trip in
both directions.  (The round trip fails for `soc_limit_reached`, for the wire
spelling `ocppCSMSURL`, and for camel keys containing `soc`, e.g.
`socketType`.) -/
theorem C1_roundtrip_amended :
    (∀ d : Data, goodSnake d = true → camel_to_snake_case (snake_to_camel_case d) = d)
    ∧ (∀ d : Data, goodCamel d = true → snake_to_camel_case (camel_to_snake_case d) = d)
    ∧ roundSnakeKey ("ocpp_csms_url".data) = true
    ∧ roundSnakeKey ("ev_v2x".data) = true
    ∧ roundSnakeKey ("ev_v2g".data) = true
    ∧ roundSnakeKey ("responder_url".data) = true
    ∧ roundSnakeKey ("csms_root_certificate".data) = true
    ∧ roundSnakeKey ("charge_point_vendor".data) = true
    ∧ roundSnakeKey ("firmware_version".data) = true
    ∧ roundCamelKey ("ocppCsmsUrl".data) = true
    ∧ roundCamelKey ("evV2X".data) = true
    ∧ roundCamelKey ("evV2G".data) = true
    ∧ roundCamelKey ("responderURL".data) = true
    ∧ roundCamelKey ("CSMSRootCertificate".data) = true
    ∧ roundCamelKey ("chargePointVendor".data) = true
    ∧ roundCamelKey ("firmwareVersion".data) = true :=
  ⟨roundSnakeData, roundCamelData, by decide, by decide, by decide, by decide,
    by decide, by decide, by decide, by decide, by decide, by decide, by decide,
    by decide, by decide, by decide⟩

theorem C1_roundtrip_amended_witness :
    camel_to_snake_case (snake_to_camel_case
        (.dict [("charge_point_vendor".data,
          Data.list [.dict [("ocpp_csms_url".data, Data.s ("ws://x".data))]])]))
      = .dict [("charge_point_vendor".data,
          Data.list [.dict [("ocpp_csms_url".data, Data.s ("ws://x".data))]])]
    ∧ snake_to_camel_case (camel_to_snake_case
        (.dict [("chargePointVendor".data, Data.b false)]))
      = .dict [("chargePointVendor".data, Data.b false)] :=
  ⟨C1_roundtrip_amended.1 _ (by decide), C1_roundtrip_amended.2.1 _ (by decide)⟩

/-- C8: serializing a dataclass and stripping absent fields removes exactly
the keys whose value is `None`: on any dict node (hence at every nesting
depth) the filtered lookup of a key yields `none` exactly when the original
value was the `None` sentinel (or the key was never present), and otherwise
the original (recursively filtered) value; falsy-but-present leaves — empty
string, zero, `False` — are preserved unchanged. -/
theorem C8_strip_exactly_absent :
    (∀ (kvs : List (Key × Data)) (k : Key), (kvs.map Prod.fst).Nodup →
      dictLookup (remove_nones (Data.dict kvs)) k
        = (lookupD k kvs).bind
            (fun v => if v.isNull then none else some (remove_nones v)))
    ∧ (∀ (fields : List (Key × DCVal)) (k : Key), (fields.map Prod.fst).Nodup →
      dictLookup (remove_nones (serialize_as_dict fields)) k
        = (lookupDC k fields).bind
            (fun v => if (serializeVal v).isNull then none
              else some (remove_nones (serializeVal v))))
    ∧ remove_nones (Data.s []) = Data.s []
    ∧ remove_nones (Data.i 0) = Data.i 0
    ∧ remove_nones (Data.b false) = Data.b false := by
  refine ⟨?_, ?_, rfl, rfl, rfl⟩
  · intro kvs k hnd
    exact lookup_removeNonesDict k kvs hnd
  · intro fields k hnd
    show lookupD k (removeNonesDict (serializeFields fields)) = _
    rw [lookup_removeNonesDict k (serializeFields fields)
      (by rw [serializeFields_keys]; exact hnd)]
    rw [lookupD_serializeFields]
    cases lookupDC k fields <;> rfl

theorem C8_strip_exactly_absent_witness :
    dictLookup (remove_nones (serialize_as_dict
        [("reason_code".data, DCVal.prim (Data.s ("Unknown".data))),
         ("additional_info".data, DCVal.prim Data.null),
         ("empty_note".data, DCVal.prim (Data.s [])),
         ("count".data, DCVal.prim (Data.i 0))]))
      ("additional_info".data)
      = none
    ∧ dictLookup (remove_nones (serialize_as_dict
        [("reason_code".data, DCVal.prim (Data.s ("Unknown".data))),
         ("additional_info".data, DCVal.prim Data.null),
         ("empty_note".data, DCVal.prim (Data.s [])),
         ("count".data, DCVal.prim (Data.i 0))]))
      ("empty_note".data)
      = some (Data.s []) := by
  constructor
  · exact C8_strip_exactly_absent.2.1
      [("reason_code".data, DCVal.prim (Data.s ("Unknown".data))),
       ("additional_info".data, DCVal.prim Data.null),
       ("empty_note".data, DCVal.prim (Data.s [])),
       ("count".data, DCVal.prim (Data.i 0))]
      ("additional_info".data) (by decide)
  · exact C8_strip_exactly_absent.2.1
      [("reason_code".data, DCVal.prim (Data.s ("Unknown".data))),
       ("additional_info".data, DCVal.prim Data.null),
       ("empty_note".data, DCVal.prim (Data.s [])),
       ("count".data, DCVal.prim (Data.i 0))]
      ("empty_note".data) (by decide)

/-- C10: `remove_nones` also filters list elements, not only dict keys: the
filtered list's length is the number of non-`None` elements of the original,
the result contains no `None` element, and a list-valued field shrinks, e.g.
`[1, None, 2, None]` becomes `[1, 2]`. -/
theorem C10_list_elements_dropped :
    (∀ xs : List Data, (removeNonesList xs).length = xs.countP (fun v => !v.isNull))
    ∧ (∀ xs : List Data, (removeNonesList xs).all (fun v => !v.isNull) = true)
    ∧ remove_nones (Data.dict [("meter_values".data,
        Data.list [Data.i 1, Data.null, Data.i 2, Data.null])])
      = Data.dict [("meter_values".data, Data.list [Data.i 1, Data.i 2])] :=
  ⟨removeNonesList_length, removeNonesList_all, rfl⟩

/-- C2: a failure of the per-message audit/persistence step
(`self._cursor.execute(...)`, line 263) escapes `route_message` to the receive
loop.  The statement evaluates `route_message` on a well-formed inbound Call
in a session whose cursor step raises `AttributeError` — which is what the
default `cursor=None` construction does on every message — and exhibits the
exception in `raised`: the `except OCPPError` clause does not stop it. -/
theorem C2_audit_failure_propagates :
    (route_message
      { version := .v16, routeMap := fun _ => none, registry := fun _ _ => false,
        validate := fun _ _ => true, cursorRaises := some .attributeError }
      (.ok (.callMsg ("m1".data) ("Heartbeat".data) (.dict [])))).raised
      = some PyExn.attributeError
    ∧ (route_message
      { version := .v16, routeMap := fun _ => none, registry := fun _ _ => false,
        validate := fun _ _ => true, cursorRaises := some .dbError }
      (.ok (.responseMsg ⟨"m2".data, false, .dict [], [], [], .null⟩))).raised
      = some PyExn.dbError :=
  ⟨rfl, rfl⟩

/-- C6: an inbound Call whose action has no route-map entry makes
`_handle_call` raise `NotImplementedError` when the negotiated version's
action registry recognizes the action, and `NotSupportedError` when it does
not (for every one of the three negotiated versions). -/
theorem C6_unrouted_action_errors (env : Env) (uniqueId action : List Char)
    (payload : Data) (h : env.routeMap action = none) :
    (handle_call env uniqueId action payload).raised
      = some (if env.registry env.version action
          then PyExn.notImplemented (noHandlerCause action)
          else PyExn.notSupported (notSupportedCause action env.version)) := by
  obtain ⟨ver, routeMap, registry, validate, cursorRaises⟩ := env
  simp only at h
  cases ver <;> simp [handle_call, h, raise_key_error]

theorem C6_unrouted_action_errors_witness :
    (handle_call
      { version := .v16, routeMap := fun _ => none, registry := fun _ _ => true,
        validate := fun _ _ => true, cursorRaises := none }
      ("m1".data) ("Heartbeat".data) (.dict [])).raised
      = some (PyExn.notImplemented (noHandlerCause ("Heartbeat".data)))
    ∧ (handle_call
      { version := .v201, routeMap := fun _ => none, registry := fun _ _ => false,
        validate := fun _ _ => true, cursorRaises := none }
      ("m2".data) ("UnknownThing".data) (.dict [])).raised
      = some (PyExn.notSupported (notSupportedCause ("UnknownThing".data) .v201)) := by
  constructor
  · have h := C6_unrouted_action_errors
      { version := .v16, routeMap := fun _ => none, registry := fun _ _ => true,
        validate := fun _ _ => true, cursorRaises := none }
      ("m1".data) ("Heartbeat".data) (.dict []) rfl
    simpa using h
  · have h := C6_unrouted_action_errors
      { version := .v201, routeMap := fun _ => none, registry := fun _ _ => false,
        validate := fun _ _ => true, cursorRaises := none }
      ("m2".data) ("UnknownThing".data) (.dict []) rfl
    simpa using h

/-- C7 counterexample: a synchronous failure raised by the `_after_action`
hook is not caught (`except KeyError` does not match a `ValueError`) and
escapes both `_handle_call` and `route_message` to the receive loop, so it is
neither logged-and-swallowed nor harmless to the pipeline. -/
theorem C7_counterexample :
    (handle_call
      { version := .v16,
        routeMap := fun _ => some
          { onAction := some (fun _ => .ok []),
            afterAction := some (fun _ => .error .valueError),
            skipSchemaValidation := true },
        registry := fun _ _ => true, validate := fun _ _ => true,
        cursorRaises := none }
      ("m1".data) ("Heartbeat".data) (.dict [])).raised = some PyExn.valueError
    ∧ (route_message
      { version := .v16,
        routeMap := fun _ => some
          { onAction := some (fun _ => .ok []),
            afterAction := some (fun _ => .error .valueError),
            skipSchemaValidation := true },
        registry := fun _ _ => true, validate := fun _ _ => true,
        cursorRaises := none }
      (.ok (.callMsg ("m1".data) ("Heartbeat".data) (.dict [])))).raised
      = some PyExn.valueError :=
  ⟨rfl, rfl⟩

/-- C7 (amended): the after-action hook is invoked only after the CallResult
frame has been sent (in every execution of `_handle_call`, every
`invokedAfter` effect is preceded by a sent CallResult frame); the absence of
an `_after_action` hook is not an error; but a failure raised synchronously
by the hook is not logged-and-swallowed: a `KeyError` is silently swallowed
by the `except KeyError: pass` clause and any other exception propagates out
of `_handle_call`; an awaitable hook result is detached with
`ensure_future`. -/
theorem C7_after_hook_amended :
    (∀ (env : Env) (uniqueId action : List Char) (payload : Data),
      afterOnlyAfterSend false (handle_call env uniqueId action payload).effects = true)
    ∧ (∀ (env : Env) (uniqueId action : List Char) (payload : Data)
        (entry : HandlerEntry) (handler : Data → Except PyExn (List (Key × DCVal)))
        (responseDC : List (Key × DCVal)),
      env.routeMap action = some entry →
      (entry.skipSchemaValidation || env.validate action payload) = true →
      entry.onAction = some handler →
      handler (camel_to_snake_case payload) = .ok responseDC →
      (entry.skipSchemaValidation || env.validate action
        (snake_to_camel_case (remove_nones (serialize_as_dict responseDC)))) = true →
      entry.afterAction = none →
      (handle_call env uniqueId action payload).raised = none)
    ∧ (∀ (env : Env) (uniqueId action : List Char) (payload : Data)
        (entry : HandlerEntry) (handler : Data → Except PyExn (List (Key × DCVal)))
        (responseDC : List (Key × DCVal))
        (after : Data → Except PyExn AfterOutcome) (e : PyExn),
      env.routeMap action = some entry →
      (entry.skipSchemaValidation || env.validate action payload) = true →
      entry.onAction = some handler →
      handler (camel_to_snake_case payload) = .ok responseDC →
      (entry.skipSchemaValidation || env.validate action
        (snake_to_camel_case (remove_nones (serialize_as_dict responseDC)))) = true →
      entry.afterAction = some after →
      after (camel_to_snake_case payload) = .error e →
      (handle_call env uniqueId action payload).raised
        = (if e.isKeyError then none else some e)) := by
  refine ⟨?_, ?_, ?_⟩
  · intro env uniqueId action payload
    unfold handle_call
    cases hr : env.routeMap action with
    | none => rfl
    | some entry =>
      dsimp only
      split_ifs with h1
      · rfl
      · cases ho : entry.onAction with
        | none => rfl
        | some handler =>
          dsimp only
          cases hh : handler (camel_to_snake_case payload) with
          | error e => rfl
          | ok responseDC =>
            dsimp only
            split_ifs with h2
            · rfl
            · cases ha : entry.afterAction with
              | none => rfl
              | some after =>
                dsimp only
                cases hah : after (camel_to_snake_case payload) with
                | error e =>
                  dsimp only
                  split_ifs <;> rfl
                | ok o => cases o <;> rfl
  · intro env uniqueId action payload entry handler responseDC hr hv1 ho hh hv2 ha
    have hc1 : (!entry.skipSchemaValidation && !env.validate action payload) = false := by
      rcases Bool.or_eq_true_iff.mp hv1 with h | h <;> simp [h]
    have hc2 : (!entry.skipSchemaValidation && !env.validate action
        (snake_to_camel_case (remove_nones (serialize_as_dict responseDC)))) = false := by
      rcases Bool.or_eq_true_iff.mp hv2 with h | h <;> simp [h]
    simp only [handle_call, hr, hc1, ho, hh, hc2, ha, Bool.false_eq_true, if_false]
  · intro env uniqueId action payload entry handler responseDC after e hr hv1 ho hh hv2 ha hah
    have hc1 : (!entry.skipSchemaValidation && !env.validate action payload) = false := by
      rcases Bool.or_eq_true_iff.mp hv1 with h | h <;> simp [h]
    have hc2 : (!entry.skipSchemaValidation && !env.validate action
        (snake_to_camel_case (remove_nones (serialize_as_dict responseDC)))) = false := by
      rcases Bool.or_eq_true_iff.mp hv2 with h | h <;> simp [h]
    simp only [handle_call, hr, hc1, ho, hh, hc2, ha, hah, Bool.false_eq_true, if_false]
    split_ifs with hk <;> simp [hk]

theorem C7_after_hook_amended_witness :
    afterOnlyAfterSend false (handle_call
      { version := .v16,
        routeMap := fun _ => some
          { onAction := some (fun _ => .ok []),
            afterAction := some (fun _ => .ok .value),
            skipSchemaValidation := true },
        registry := fun _ _ => true, validate := fun _ _ => true,
        cursorRaises := none }
      ("m1".data) ("Heartbeat".data) (.dict [])).effects = true
    ∧ (handle_call
      { version := .v16,
        routeMap := fun _ => some
          { onAction := some (fun _ => .ok []),
            afterAction := none,
            skipSchemaValidation := true },
        registry := fun _ _ => true, validate := fun _ _ => true,
        cursorRaises := none }
      ("m1".data) ("Heartbeat".data) (.dict [])).raised = none
    ∧ (handle_call
      { version := .v16,
        routeMap := fun _ => some
          { onAction := some (fun _ => .ok []),
            afterAction := some (fun _ => .error .keyError),
            skipSchemaValidation := true },
        registry := fun _ _ => true, validate := fun _ _ => true,
        cursorRaises := none }
      ("m1".data) ("Heartbeat".data) (.dict [])).raised
      = (if PyExn.keyError.isKeyError then none else some PyExn.keyError) := by
  refine ⟨?_, ?_, ?_⟩
  · exact C7_after_hook_amended.1
      { version := .v16,
        routeMap := fun _ => some
          { onAction := some (fun _ => .ok []),
            afterAction := some (fun _ => .ok .value),
            skipSchemaValidation := true },
        registry := fun _ _ => true, validate := fun _ _ => true,
        cursorRaises := none }
      ("m1".data) ("Heartbeat".data) (.dict [])
  · exact C7_after_hook_amended.2.1
      { version := .v16,
        routeMap := fun _ => some
          { onAction := some (fun _ => .ok []),
            afterAction := none,
            skipSchemaValidation := true },
        registry := fun _ _ => true, validate := fun _ _ => true,
        cursorRaises := none }
      ("m1".data) ("Heartbeat".data) (.dict []) _ _ [] rfl rfl rfl rfl rfl rfl
  · exact C7_after_hook_amended.2.2
      { version := .v16,
        routeMap := fun _ => some
          { onAction := some (fun _ => .ok []),
            afterAction := some (fun _ => .error .keyError),
            skipSchemaValidation := true },
        registry := fun _ _ => true, validate := fun _ _ => true,
        cursorRaises := none }
      ("m1".data) ("Heartbeat".data) (.dict []) _ _ [] _ .keyError
      rfl rfl rfl rfl rfl rfl rfl

/-- C3: when the configured response timeout elapses with no matching
response (the correlator returns `None` after the inner `wait_for` timeout,
or raises `asyncio.TimeoutError`, which `call` catches), `call()` returns
`None` to its caller instead of raising, exactly one Call frame was sent,
and the lock section is exited. -/
theorem C3_timeout_no_response (env : CallEnv) (action : List Char)
    (fields : List (Key × DCVal)) (suppress : Bool) (uniqueIdArg : Option (List Char))
    (skipSchemaValidation : Bool)
    (hsend : env.sendFails = none)
    (hval : (skipSchemaValidation || env.validate action
      (remove_nones (snake_to_camel_case (serialize_as_dict fields)))) = true)
    (hto : (get_specific_response (uniqueIdArg.getD env.generatedId)
        env.responseTimeout env.startTime env.arrivals).out = .ok none
      ∨ (get_specific_response (uniqueIdArg.getD env.generatedId)
        env.responseTimeout env.startTime env.arrivals).out = .error ()) :
    (ChargePoint.call env action fields suppress uniqueIdArg skipSchemaValidation).result
      = .ok none
    ∧ ((get_specific_response (uniqueIdArg.getD env.generatedId)
        env.responseTimeout env.startTime env.arrivals).endTime, CEv.release)
      ∈ (ChargePoint.call env action fields suppress uniqueIdArg skipSchemaValidation).events
    ∧ countSends
        (ChargePoint.call env action fields suppress uniqueIdArg skipSchemaValidation).events
      = 1 := by
  have hc : (!skipSchemaValidation && !env.validate action
      (remove_nones (snake_to_camel_case (serialize_as_dict fields)))) = false := by
    rcases Bool.or_eq_true_iff.mp hval with h | h <;> simp [h]
  unfold ChargePoint.call
  simp only [hc, Bool.false_eq_true, if_false, hsend]
  rcases hto with h | h <;>
    simp [h, countSends, isSendEvent]

theorem C3_timeout_no_response_witness :
    (ChargePoint.call
        { startTime := 0, responseTimeout := 2, arrivals := [],
          validate := fun _ _ => true, sendFails := none, generatedId := "u1".data }
        ("Heartbeat".data) [] true none false).result = .ok none
    ∧ ((get_specific_response ("u1".data) 2 0 []).endTime, CEv.release)
      ∈ (ChargePoint.call
        { startTime := 0, responseTimeout := 2, arrivals := [],
          validate := fun _ _ => true, sendFails := none, generatedId := "u1".data }
        ("Heartbeat".data) [] true none false).events
    ∧ countSends (ChargePoint.call
        { startTime := 0, responseTimeout := 2, arrivals := [],
          validate := fun _ _ => true, sendFails := none, generatedId := "u1".data }
        ("Heartbeat".data) [] true none false).events = 1 :=
  C3_timeout_no_response
    { startTime := 0, responseTimeout := 2, arrivals := [],
      validate := fun _ _ => true, sendFails := none, generatedId := "u1".data }
    ("Heartbeat".data) [] true none false rfl rfl (Or.inl rfl)

/-- C4: when the correlated response to an outbound call is a CallError,
`call()` returns `None` when `suppress` is `true` (the default) and raises
`response.to_exception()` — carrying the peer's error code, description and
details — when `suppress` is `false`. -/
theorem C4_callerror_suppression (env : CallEnv) (action : List Char)
    (fields : List (Key × DCVal)) (uniqueIdArg : Option (List Char))
    (skipSchemaValidation : Bool) (m : RespMsg)
    (hsend : env.sendFails = none)
    (hval : (skipSchemaValidation || env.validate action
      (remove_nones (snake_to_camel_case (serialize_as_dict fields)))) = true)
    (hresp : (get_specific_response (uniqueIdArg.getD env.generatedId)
        env.responseTimeout env.startTime env.arrivals).out = .ok (some m))
    (herr : m.is_error = true) :
    (ChargePoint.call env action fields true uniqueIdArg skipSchemaValidation).result
      = .ok none
    ∧ (ChargePoint.call env action fields false uniqueIdArg skipSchemaValidation).result
      = .error (.remote m.errorCode m.errorDescription m.errorDetails) := by
  have hc : (!skipSchemaValidation && !env.validate action
      (remove_nones (snake_to_camel_case (serialize_as_dict fields)))) = false := by
    rcases Bool.or_eq_true_iff.mp hval with h | h <;> simp [h]
  unfold ChargePoint.call
  simp only [hc, Bool.false_eq_true, if_false, hsend, hresp, herr]
  exact ⟨rfl, rfl⟩

theorem C4_callerror_suppression_witness :
    (ChargePoint.call
        { startTime := 0, responseTimeout := 2,
          arrivals := [(1, ⟨"u1".data, true, Data.null, "InternalError".data,
            "boom".data, Data.dict []⟩)],
          validate := fun _ _ => true, sendFails := none, generatedId := "u1".data }
        ("Heartbeat".data) [] true none false).result = .ok none
    ∧ (ChargePoint.call
        { startTime := 0, responseTimeout := 2,
          arrivals := [(1, ⟨"u1".data, true, Data.null, "InternalError".data,
            "boom".data, Data.dict []⟩)],
          validate := fun _ _ => true, sendFails := none, generatedId := "u1".data }
        ("Heartbeat".data) [] false none false).result
      = .error (.remote ("InternalError".data) ("boom".data) (Data.dict [])) :=
  C4_callerror_suppression
    { startTime := 0, responseTimeout := 2,
      arrivals := [(1, ⟨"u1".data, true, Data.null, "InternalError".data,
        "boom".data, Data.dict []⟩)],
      validate := fun _ _ => true, sendFails := none, generatedId := "u1".data }
    ("Heartbeat".data) [] none false
    ⟨"u1".data, true, Data.null, "InternalError".data, "boom".data, Data.dict []⟩
    rfl rfl rfl rfl

/-- C5: while awaiting a correlated response, every dequeued response with a
non-matching correlation id is discarded (all dropped messages mismatch, a
delivered message always matches) and the wait is bounded by the *original*
deadline `now + timeout`, never re-armed after a mismatch; concretely — the
spec's 2-unit-timeout scenario with mismatches at t = 0.5 and t = 1.0 and the
match at t = 1.5, scaled by 2 into integer ticks — with a 4-tick timeout,
mismatches arriving at t = 1 and t = 2 and the matching response at t = 3,
the call resolves with the match at t = 3 after dropping the two stale
responses. -/
theorem C5_correlation_original_deadline :
    (∀ (uniqueId : List Char) (arr : List (ℤ × RespMsg)) (timeout now : ℤ),
      0 ≤ timeout →
      (get_specific_response uniqueId timeout now arr).endTime ≤ now + timeout)
    ∧ (∀ (uniqueId : List Char) (arr : List (ℤ × RespMsg)) (timeout now : ℤ)
        (m : RespMsg),
      (get_specific_response uniqueId timeout now arr).out = .ok (some m) →
      m.uniqueId = uniqueId)
    ∧ (∀ (uniqueId : List Char) (arr : List (ℤ × RespMsg)) (timeout now : ℤ)
        (m : RespMsg),
      m ∈ (get_specific_response uniqueId timeout now arr).dropped →
      m.uniqueId ≠ uniqueId)
    ∧ (get_specific_response ("a".data) 4 0
        [(1, ⟨"b".data, false, Data.null, [], [], Data.null⟩),
         (2, ⟨"c".data, false, Data.null, [], [], Data.null⟩),
         (3, ⟨"a".data, false, Data.null, [], [], Data.null⟩)]).out
      = .ok (some ⟨"a".data, false, Data.null, [], [], Data.null⟩)
    ∧ (get_specific_response ("a".data) 4 0
        [(1, ⟨"b".data, false, Data.null, [], [], Data.null⟩),
         (2, ⟨"c".data, false, Data.null, [], [], Data.null⟩),
         (3, ⟨"a".data, false, Data.null, [], [], Data.null⟩)]).endTime
      = 3
    ∧ (get_specific_response ("a".data) 4 0
        [(1, ⟨"b".data, false, Data.null, [], [], Data.null⟩),
         (2, ⟨"c".data, false, Data.null, [], [], Data.null⟩),
         (3, ⟨"a".data, false, Data.null, [], [], Data.null⟩)]).dropped
      = [⟨"b".data, false, Data.null, [], [], Data.null⟩,
         ⟨"c".data, false, Data.null, [], [], Data.null⟩] := by
  refine ⟨?_, ?_, ?_, ?_, ?_, ?_⟩
  · intro uniqueId arr timeout now h
    exact getSpec_endTime_le uniqueId arr timeout now h
  · intro uniqueId arr timeout now m h
    exact getSpec_match uniqueId arr timeout now m h
  · intro uniqueId arr timeout now m h
    exact getSpec_dropped uniqueId arr timeout now m h
  · rfl
  · rfl
  · rfl

theorem C5_correlation_original_deadline_witness :
    (get_specific_response ("a".data) 4 0
      [(1, ⟨"b".data, false, Data.null, [], [], Data.null⟩)]).endTime ≤ 0 + 4
    ∧ (⟨"b".data, false, Data.null, [], [], Data.null⟩ : RespMsg).uniqueId ≠ "a".data :=
  ⟨C5_correlation_original_deadline.1 ("a".data)
      [(1, ⟨"b".data, false, Data.null, [], [], Data.null⟩)] 4 0 (by norm_num),
    C5_correlation_original_deadline.2.2.1 ("a".data)
      [(1, ⟨"b".data, false, Data.null, [], [], Data.null⟩)] 4 0
      ⟨"b".data, false, Data.null, [], [], Data.null⟩ (by constructor)⟩

theorem call_sends_le_one (env : CallEnv) (action : List Char)
    (fields : List (Key × DCVal)) (suppress : Bool) (uniqueIdArg : Option (List Char))
    (skipSchemaValidation : Bool) :
    countSends
      (ChargePoint.call env action fields suppress uniqueIdArg skipSchemaValidation).events
      ≤ 1 := by
  unfold ChargePoint.call
  dsimp only
  by_cases h1 : (!skipSchemaValidation && !env.validate action
      (remove_nones (snake_to_camel_case (serialize_as_dict fields)))) = true
  · rw [if_pos h1]
    exact Nat.zero_le 1
  · rw [if_neg h1]
    cases hs : env.sendFails with
    | some e => exact Nat.zero_le 1
    | none =>
      cases hg : (get_specific_response (uniqueIdArg.getD env.generatedId)
          env.responseTimeout env.startTime env.arrivals).out with
      | error u => exact Nat.le_refl 1
      | ok o =>
        cases o with
        | none => exact Nat.le_refl 1
        | some m =>
          dsimp only
          split_ifs <;> exact Nat.le_refl 1

theorem call_sends_eq_one (env : CallEnv) (action : List Char)
    (fields : List (Key × DCVal)) (suppress : Bool) (uniqueIdArg : Option (List Char))
    (skipSchemaValidation : Bool)
    (hsend : env.sendFails = none)
    (hval : (skipSchemaValidation || env.validate action
      (remove_nones (snake_to_camel_case (serialize_as_dict fields)))) = true) :
    countSends
      (ChargePoint.call env action fields suppress uniqueIdArg skipSchemaValidation).events
      = 1 := by
  have hc : (!skipSchemaValidation && !env.validate action
      (remove_nones (snake_to_camel_case (serialize_as_dict fields)))) = false := by
    rcases Bool.or_eq_true_iff.mp hval with h | h <;> simp [h]
  unfold ChargePoint.call
  dsimp only
  rw [hc]
  rw [if_neg (by simp)]
  rw [hsend]
  cases hg : (get_specific_response (uniqueIdArg.getD env.generatedId)
      env.responseTimeout env.startTime env.arrivals).out with
  | error u => rfl
  | ok o =>
    cases o with
    | none => rfl
    | some m =>
      dsimp only
      split_ifs <;> rfl

theorem call_events_bracketed (env : CallEnv) (action : List Char)
    (fields : List (Key × DCVal)) (suppress : Bool) (uniqueIdArg : Option (List Char))
    (skipSchemaValidation : Bool) :
    (ChargePoint.call env action fields suppress uniqueIdArg skipSchemaValidation).events = []
    ∨ ∃ mid,
      (ChargePoint.call env action fields suppress uniqueIdArg skipSchemaValidation).events
        = (env.startTime, CEv.acquire)
          :: (mid ++ [((ChargePoint.call env action fields suppress uniqueIdArg
                skipSchemaValidation).endTime, CEv.release)]) := by
  unfold ChargePoint.call
  dsimp only
  by_cases h1 : (!skipSchemaValidation && !env.validate action
      (remove_nones (snake_to_camel_case (serialize_as_dict fields)))) = true
  · rw [if_pos h1]
    exact Or.inl rfl
  · rw [if_neg h1]
    cases hs : env.sendFails with
    | some e => exact Or.inr ⟨[], rfl⟩
    | none =>
      cases hg : (get_specific_response (uniqueIdArg.getD env.generatedId)
          env.responseTimeout env.startTime env.arrivals).out with
      | error u =>
        exact Or.inr ⟨[(env.startTime, .sentC (.callFrame (uniqueIdArg.getD env.generatedId)
          action (remove_nones (snake_to_camel_case (serialize_as_dict fields))))),
          ((get_specific_response (uniqueIdArg.getD env.generatedId)
            env.responseTimeout env.startTime env.arrivals).endTime, .timedOut)], rfl⟩
      | ok o =>
        cases o with
        | none =>
          exact Or.inr ⟨[(env.startTime, .sentC (.callFrame (uniqueIdArg.getD env.generatedId)
            action (remove_nones (snake_to_camel_case (serialize_as_dict fields))))),
            ((get_specific_response (uniqueIdArg.getD env.generatedId)
              env.responseTimeout env.startTime env.arrivals).endTime, .timedOut)], rfl⟩
        | some m =>
          dsimp only
          split_ifs <;>
            exact Or.inr ⟨[(env.startTime, .sentC (.callFrame (uniqueIdArg.getD env.generatedId)
              action (remove_nones (snake_to_camel_case (serialize_as_dict fields))))),
              ((get_specific_response (uniqueIdArg.getD env.generatedId)
                env.responseTimeout env.startTime env.arrivals).endTime, .gotResponse m)], rfl⟩

theorem call_event_time_bounds (env : CallEnv) (action : List Char)
    (fields : List (Key × DCVal)) (suppress : Bool) (uniqueIdArg : Option (List Char))
    (skipSchemaValidation : Bool) (h0 : 0 ≤ env.responseTimeout) :
    ∀ p ∈ (ChargePoint.call env action fields suppress uniqueIdArg skipSchemaValidation).events,
      env.startTime ≤ p.1
      ∧ p.1 ≤ (ChargePoint.call env action fields suppress uniqueIdArg
          skipSchemaValidation).endTime := by
  have hge := getSpec_endTime_ge (uniqueIdArg.getD env.generatedId) env.arrivals
    env.responseTimeout env.startTime h0
  unfold ChargePoint.call
  dsimp only
  by_cases h1 : (!skipSchemaValidation && !env.validate action
      (remove_nones (snake_to_camel_case (serialize_as_dict fields)))) = true
  · rw [if_pos h1]
    intro p hp
    simp at hp
  · rw [if_neg h1]
    cases hs : env.sendFails with
    | some e =>
      intro p hp
      simp only [List.mem_cons, List.not_mem_nil, or_false] at hp
      rcases hp with rfl | rfl <;> exact ⟨le_rfl, le_rfl⟩
    | none =>
      cases hg : (get_specific_response (uniqueIdArg.getD env.generatedId)
          env.responseTimeout env.startTime env.arrivals).out with
      | error u =>
        intro p hp
        simp only [List.mem_cons, List.not_mem_nil, or_false] at hp
        rcases hp with rfl | rfl | rfl | rfl
        · exact ⟨le_rfl, hge⟩
        · exact ⟨le_rfl, hge⟩
        · exact ⟨hge, le_rfl⟩
        · exact ⟨hge, le_rfl⟩
      | ok o =>
        cases o with
        | none =>
          intro p hp
          simp only [List.mem_cons, List.not_mem_nil, or_false] at hp
          rcases hp with rfl | rfl | rfl | rfl
          · exact ⟨le_rfl, hge⟩
          · exact ⟨le_rfl, hge⟩
          · exact ⟨hge, le_rfl⟩
          · exact ⟨hge, le_rfl⟩
        | some m =>
          dsimp only
          split_ifs <;>
            (intro p hp
             simp only [List.mem_cons, List.not_mem_nil, or_false] at hp
             rcases hp with rfl | rfl | rfl | rfl
             · exact ⟨le_rfl, hge⟩
             · exact ⟨le_rfl, hge⟩
             · exact ⟨hge, le_rfl⟩
             · exact ⟨hge, le_rfl⟩)

/-- C9 counterexample: an invocation of `call()` whose request payload fails
schema validation raises before anything is sent, so it sends zero frames —
"exactly one Call frame is sent per invocation" does not hold as stated. -/
theorem C9_counterexample :
    countSends (ChargePoint.call
        { startTime := 0, responseTimeout := 2, arrivals := [],
          validate := fun _ _ => false, sendFails := none, generatedId := "u1".data }
        ("Heartbeat".data) [] true none false).events = 0
    ∧ (ChargePoint.call
        { startTime := 0, responseTimeout := 2, arrivals := [],
          validate := fun _ _ => false, sendFails := none, generatedId := "u1".data }
        ("Heartbeat".data) [] true none false).result = .error .schemaValidation :=
  ⟨rfl, rfl⟩

/-- C9 (amended): every invocation of `call()` sends at most one Call frame,
and exactly one once the request passes (or skips) schema validation and the
transport accepts it; whenever the lock is acquired it is also released —
the event trace is `acquire … release` even when an exception is raised —
and the send and the terminal outcome happen inside the lock section, all of
whose events lie between the call's start and its end time; consequently,
when the lock serializes two calls (the second starts only after the first's
end time, as `asyncio.Lock` guarantees for the winner/loser of the
contention), all events of the first — including its send and outcome —
precede all events of the second, so the two in-flight windows never
overlap. -/
theorem C9_single_flight_amended :
    (∀ (env : CallEnv) (action : List Char) (fields : List (Key × DCVal))
        (suppress : Bool) (uniqueIdArg : Option (List Char)) (skipSchemaValidation : Bool),
      countSends (ChargePoint.call env action fields suppress uniqueIdArg
        skipSchemaValidation).events ≤ 1)
    ∧ (∀ (env : CallEnv) (action : List Char) (fields : List (Key × DCVal))
        (suppress : Bool) (uniqueIdArg : Option (List Char)) (skipSchemaValidation : Bool),
      env.sendFails = none →
      (skipSchemaValidation || env.validate action
        (remove_nones (snake_to_camel_case (serialize_as_dict fields)))) = true →
      countSends (ChargePoint.call env action fields suppress uniqueIdArg
        skipSchemaValidation).events = 1)
    ∧ (∀ (env : CallEnv) (action : List Char) (fields : List (Key × DCVal))
        (suppress : Bool) (uniqueIdArg : Option (List Char)) (skipSchemaValidation : Bool),
      (ChargePoint.call env action fields suppress uniqueIdArg skipSchemaValidation).events = []
      ∨ ∃ mid,
        (ChargePoint.call env action fields suppress uniqueIdArg skipSchemaValidation).events
          = (env.startTime, CEv.acquire)
            :: (mid ++ [((ChargePoint.call env action fields suppress uniqueIdArg
                  skipSchemaValidation).endTime, CEv.release)]))
    ∧ (∀ (env : CallEnv) (action : List Char) (fields : List (Key × DCVal))
        (suppress : Bool) (uniqueIdArg : Option (List Char)) (skipSchemaValidation : Bool),
      0 ≤ env.responseTimeout →
      ∀ p ∈ (ChargePoint.call env action fields suppress uniqueIdArg
          skipSchemaValidation).events,
        env.startTime ≤ p.1
        ∧ p.1 ≤ (ChargePoint.call env action fields suppress uniqueIdArg
            skipSchemaValidation).endTime)
    ∧ (∀ (env1 env2 : CallEnv) (action1 action2 : List Char)
        (fields1 fields2 : List (Key × DCVal)) (suppress1 suppress2 : Bool)
        (uid1 uid2 : Option (List Char)) (skip1 skip2 : Bool),
      0 ≤ env1.responseTimeout → 0 ≤ env2.responseTimeout →
      (ChargePoint.call env1 action1 fields1 suppress1 uid1 skip1).endTime ≤ env2.startTime →
      ∀ p1 ∈ (ChargePoint.call env1 action1 fields1 suppress1 uid1 skip1).events,
      ∀ p2 ∈ (ChargePoint.call env2 action2 fields2 suppress2 uid2 skip2).events,
        p1.1 ≤ p2.1) := by
  refine ⟨call_sends_le_one, call_sends_eq_one, call_events_bracketed,
    call_event_time_bounds, ?_⟩
  intro env1 env2 action1 action2 fields1 fields2 suppress1 suppress2 uid1 uid2
    skip1 skip2 h01 h02 hseq p1 hp1 p2 hp2
  have b1 := call_event_time_bounds env1 action1 fields1 suppress1 uid1 skip1 h01 p1 hp1
  have b2 := call_event_time_bounds env2 action2 fields2 suppress2 uid2 skip2 h02 p2 hp2
  linarith [b1.2, b2.1]

theorem C9_single_flight_amended_witness :
    countSends (ChargePoint.call
        { startTime := 0, responseTimeout := 2, arrivals := [],
          validate := fun _ _ => true, sendFails := none, generatedId := "u1".data }
        ("Heartbeat".data) [] true none false).events = 1
    ∧ ((0 : ℤ), CEv.acquire)
        ∈ (ChargePoint.call
          { startTime := 0, responseTimeout := 2, arrivals := [],
            validate := fun _ _ => true, sendFails := none, generatedId := "u1".data }
          ("Heartbeat".data) [] true none false).events := by
  constructor
  · exact C9_single_flight_amended.2.1
      { startTime := 0, responseTimeout := 2, arrivals := [],
        validate := fun _ _ => true, sendFails := none, generatedId := "u1".data }
      ("Heartbeat".data) [] true none false rfl rfl
  · exact List.mem_cons_self _ _

end Ocpp
